import Mathlib

/-!
Verification of the resumable upgrade downloader
(psiphon/upgradeDownload.go, function DownloadUpgrade).

The Go function is embedded shallowly:

- the filesystem is a map from paths to optional byte lists;
- every effectful step of DownloadUpgrade is recorded as an `Action`
  in the order the Go code performs it, and the filesystem effect of a
  trace is obtained by folding `applyAction` over the trace;
- the environment `Env` supplies the outcome of every external call
  (client construction, open, stat, request construction, transport,
  close, rename) and the HTTP response (status code, delivered body
  bytes, and whether the body stream errors after those bytes);
- `downloadUpgrade` mirrors the Go control flow branch by branch and
  returns the Go function's result together with the trace of actions
  it performed.
-/

namespace UpgradeDL

abbrev Path := String

/-- A filesystem: each path holds either no file or a byte list. -/
abbrev FS := Path → Option (List Nat)

/-- Fields of psiphon.Config used by DownloadUpgrade. -/
structure Config where
  upgradeDownloadFilename : Path
  upgradeDownloadUrl : String
deriving DecidableEq

/-- An HTTP response as seen through httpClient.Do and response.Body:
`body` is the byte sequence the body reader delivers, and `bodyErr`
tells whether the stream fails after delivering them (io.Copy then
returns an error after having written exactly `body` to the file). -/
structure Response where
  statusCode : Nat
  body : List Nat
  bodyErr : Bool
deriving DecidableEq

/-- Outcomes of the external calls DownloadUpgrade makes, in program
order: MakeTunneledHttpClient, os.OpenFile, file.Stat,
http.NewRequest, httpClient.Do (`none` is a transport error),
file.Close, os.Rename. -/
structure Env where
  clientOk : Bool
  openOk : Bool
  statOk : Bool
  reqOk : Bool
  transport : Option Response
  closeOk : Bool
  renameOk : Bool
deriving DecidableEq

/-- Error results of DownloadUpgrade; each constructor corresponds to
one ContextError return site of the Go function, so the phase that
failed is visible in the result. -/
inductive Err where
  | clientErr : Err
  | openErr : Err
  | statErr : Err
  | reqErr : Err
  | transportErr : Err
  | protocolErr : Nat → Err
  | copyErr : Err
  | closeErr : Err
  | renameErr : Err
deriving DecidableEq

/-- One effectful step of DownloadUpgrade. The notice actions model
NoticeInfo (byte count) and NoticeClientUpgradeDownloaded (artifact
available). -/
inductive Action where
  | makeClient : Action
  | openPart : Path → Action
  | statPart : Path → Action
  | sendRequest : (url rangeHdr : String) → Action
  | closeBody : Action
  | copyBody : Path → List Nat → Action
  | noticeBytes : Nat → Action
  | closeFile : Path → Action
  | renameFile : (src dst : Path) → Action
  | noticeDownloaded : Path → Action
deriving DecidableEq

/-- Filesystem effect of one action. Opening with
O_CREATE, O_APPEND and O_WRONLY creates an empty file when the path is
absent and never truncates an existing one; copying appends the
delivered bytes; renaming moves the content of src to dst atomically.
The remaining actions do not change the filesystem. -/
def applyAction (fs : FS) : Action → FS
  | Action.openPart p => fun q => if q = p then some ((fs p).getD []) else fs q
  | Action.copyBody p bytes => fun q => if q = p then some ((fs p).getD [] ++ bytes) else fs q
  | Action.renameFile src dst =>
      fun q => if q = dst then fs src else if q = src then none else fs q
  | _ => fs

/-- Filesystem effect of a trace, first action applied first. -/
def applyActions (fs : FS) (as : List Action) : FS :=
  as.foldl applyAction fs

/-- The Go code's fmt.Sprintf("%s.%s.part", config.UpgradeDownloadFilename,
clientUpgradeVersion). -/
def partFilename (cfg : Config) (clientUpgradeVersion : String) : Path :=
  cfg.upgradeDownloadFilename ++ "." ++ clientUpgradeVersion ++ ".part"

/-- The Range header value fmt.Sprintf("bytes=%d-", fileInfo.Size()). -/
def rangeHeader (nBytes : Nat) : String :=
  "bytes=" ++ toString nBytes ++ "-"

/-- Shallow embedding of psiphon.DownloadUpgrade. Returns the Go
function's result (Except mirrors error/nil) and the ordered trace of
effectful steps it performed. Control flow follows the source: final
file existence check; client construction; open of the .part file;
stat; request construction with the Range header; the transport call;
the 206/416 status check (any other status closes the body and fails);
io.Copy of the response body into the file; the byte-count notice;
file.Close; os.Rename; the downloaded notice. -/
def downloadUpgrade (cfg : Config) (clientUpgradeVersion : String) (env : Env) (fs : FS) :
    Except Err Unit × List Action :=
  match fs cfg.upgradeDownloadFilename with
  | some _ => (Except.ok (), [Action.noticeDownloaded cfg.upgradeDownloadFilename])
  | none =>
    if env.clientOk then
      let pf := partFilename cfg clientUpgradeVersion
      if env.openOk then
        if env.statOk then
          let L : Nat := ((fs pf).getD []).length
          if env.reqOk then
            match env.transport with
            | none =>
              (Except.error Err.transportErr,
                [Action.makeClient, Action.openPart pf, Action.statPart pf,
                 Action.sendRequest cfg.upgradeDownloadUrl (rangeHeader L)])
            | some resp =>
              if resp.statusCode ≠ 206 ∧ resp.statusCode ≠ 416 then
                (Except.error (Err.protocolErr resp.statusCode),
                  [Action.makeClient, Action.openPart pf, Action.statPart pf,
                   Action.sendRequest cfg.upgradeDownloadUrl (rangeHeader L),
                   Action.closeBody])
              else if resp.bodyErr then
                (Except.error Err.copyErr,
                  [Action.makeClient, Action.openPart pf, Action.statPart pf,
                   Action.sendRequest cfg.upgradeDownloadUrl (rangeHeader L),
                   Action.copyBody pf resp.body])
              else if env.closeOk then
                if env.renameOk then
                  (Except.ok (),
                    [Action.makeClient, Action.openPart pf, Action.statPart pf,
                     Action.sendRequest cfg.upgradeDownloadUrl (rangeHeader L),
                     Action.copyBody pf resp.body,
                     Action.noticeBytes resp.body.length,
                     Action.closeFile pf,
                     Action.renameFile pf cfg.upgradeDownloadFilename,
                     Action.noticeDownloaded cfg.upgradeDownloadFilename])
                else
                  (Except.error Err.renameErr,
                    [Action.makeClient, Action.openPart pf, Action.statPart pf,
                     Action.sendRequest cfg.upgradeDownloadUrl (rangeHeader L),
                     Action.copyBody pf resp.body,
                     Action.noticeBytes resp.body.length,
                     Action.closeFile pf])
              else
                (Except.error Err.closeErr,
                  [Action.makeClient, Action.openPart pf, Action.statPart pf,
                   Action.sendRequest cfg.upgradeDownloadUrl (rangeHeader L),
                   Action.copyBody pf resp.body,
                   Action.noticeBytes resp.body.length,
                   Action.closeFile pf])
          else
            (Except.error Err.reqErr,
              [Action.makeClient, Action.openPart pf, Action.statPart pf])
        else
          (Except.error Err.statErr, [Action.makeClient, Action.openPart pf])
      else
        (Except.error Err.openErr, [Action.makeClient])
    else
      (Except.error Err.clientErr, [])

theorem applyActions_nil (fs : FS) : applyActions fs [] = fs := rfl

theorem applyActions_cons (fs : FS) (a : Action) (as : List Action) :
    applyActions fs (a :: as) = applyActions (applyAction fs a) as := rfl

/-- The .part path is distinct from the final path (it is strictly
longer). -/
theorem partFilename_ne (cfg : Config) (v : String) :
    partFilename cfg v ≠ cfg.upgradeDownloadFilename := by
  intro h
  have hlen := congrArg String.length h
  have h1 : (".").length = 1 := rfl
  have h5 : (".part").length = 5 := rfl
  simp only [partFilename, String.length_append, h1, h5] at hlen
  omega

/-- An action writes to path `q` when it is an open, a copy, or a
rename targeting `q`; all other actions leave every path unchanged. -/
def writesPath (q : Path) : Action → Prop
  | Action.openPart p => p = q
  | Action.copyBody p _ => p = q
  | Action.renameFile src dst => src = q ∨ dst = q
  | _ => False

theorem applyAction_not_writes (fs : FS) (q : Path) :
    ∀ a : Action, ¬ writesPath q a → applyAction fs a q = fs q := by
  intro a h
  cases a with
  | openPart p =>
      simp only [writesPath] at h
      simp [applyAction, Ne.symm h]
  | copyBody p bytes =>
      simp only [writesPath] at h
      simp [applyAction, Ne.symm h]
  | renameFile src dst =>
      simp only [writesPath] at h
      push_neg at h
      simp [applyAction, Ne.symm h.1, Ne.symm h.2]
  | makeClient => rfl
  | statPart p => rfl
  | sendRequest u r => rfl
  | closeBody => rfl
  | noticeBytes n => rfl
  | closeFile p => rfl
  | noticeDownloaded p => rfl

theorem applyActions_not_writes (q : Path) :
    ∀ (as : List Action) (fs : FS), (∀ a ∈ as, ¬ writesPath q a) →
      applyActions fs as q = fs q := by
  intro as
  induction as with
  | nil => intro fs _; rfl
  | cons a as ih =>
      intro fs h
      rw [applyActions_cons, ih (applyAction fs a) (fun b hb => h b (List.mem_cons_of_mem a hb)),
        applyAction_not_writes fs q a (h a (List.mem_cons_self a as))]

theorem front_of_nil {α : Type} (pre : List α) (h : pre <+: ([] : List α)) :
    pre = [] := by
  obtain ⟨t, ht⟩ := h
  exact (List.append_eq_nil.mp ht).1

theorem front_of_cons {α : Type} (a : α) (l pre : List α) (h : pre <+: a :: l) :
    pre = [] ∨ ∃ pre', pre = a :: pre' ∧ pre' <+: l := by
  cases pre with
  | nil => exact Or.inl rfl
  | cons b pre' =>
      obtain ⟨t, ht⟩ := h
      rw [List.cons_append] at ht
      injection ht with hb hrest
      exact Or.inr ⟨pre', by rw [hb], ⟨t, hrest⟩⟩

/-- Concrete configuration for witnesses: final path "f", URL "u". -/
def cfg0 : Config := ⟨"f", "u"⟩

/-- Empty filesystem. -/
def fsNone : FS := fun _ => none

/-- Filesystem holding a two-byte partial file for cfg0 and version
"v". -/
def fsPart : FS := fun p => if p = "f.v.part" then some [1, 2] else none

/-- Filesystem in which the final artifact of cfg0 already exists. -/
def fsFinal : FS := fun p => if p = "f" then some [9] else none

/-- A 206 response delivering three bytes. -/
def resp206 : Response := ⟨206, [3, 4, 5], false⟩

/-- A 416 response with an empty body. -/
def resp416 : Response := ⟨416, [], false⟩

/-- A 416 response that carries a one-byte body. -/
def resp416b : Response := ⟨416, [7], false⟩

/-- A 404 response. -/
def resp404 : Response := ⟨404, [9], false⟩

/-- Environment in which every external call succeeds and the
transport yields `r`. -/
def envOf (r : Response) : Env := ⟨true, true, true, true, some r, true, true⟩

/-- Environment in which client construction fails. -/
def envNoClient : Env := ⟨false, true, true, true, none, true, true⟩

/-- Environment in which everything succeeds except the final rename. -/
def envNoRename (r : Response) : Env := ⟨true, true, true, true, some r, true, false⟩

/-- Counterexample to claim C1 as stated: a 416 response carrying a
one-byte body. DownloadUpgrade pipes the body of every accepted
response through io.Copy, a 416 included, so that byte is appended to
the partial file, the byte-count notice reports 1 rather than 0, and
the published artifact contains the extra byte. -/
theorem C1_cex :
    (downloadUpgrade cfg0 "v" (envOf resp416b) fsPart).1 = Except.ok ()
    ∧ Action.copyBody "f.v.part" [7] ∈ (downloadUpgrade cfg0 "v" (envOf resp416b) fsPart).2
    ∧ Action.noticeBytes 1 ∈ (downloadUpgrade cfg0 "v" (envOf resp416b) fsPart).2
    ∧ Action.noticeBytes 0 ∉ (downloadUpgrade cfg0 "v" (envOf resp416b) fsPart).2
    ∧ applyActions fsPart (downloadUpgrade cfg0 "v" (envOf resp416b) fsPart).2 "f"
        = some [1, 2, 7] :=
  ⟨rfl, by decide, by decide, by decide, by decide⟩

/-- Claim C1 (corrected): the code runs io.Copy over the 416 response
body just as for a 206, so the claim holds exactly when that body is
empty. Amended statement: on a 416 response whose body delivers no
bytes, nothing is appended to the partial file, the byte-count notice
reports 0, and the run proceeds directly to close and rename,
publishing the partial file's prior content unchanged. -/
theorem C1_thm (cfg : Config) (v : String) (env : Env) (fs : FS) (resp : Response)
    (hfin : fs cfg.upgradeDownloadFilename = none)
    (hc : env.clientOk = true) (ho : env.openOk = true) (hs : env.statOk = true)
    (hr : env.reqOk = true) (ht : env.transport = some resp)
    (h416 : resp.statusCode = 416) (hbody : resp.body = [])
    (hberr : resp.bodyErr = false)
    (hcl : env.closeOk = true) (hrn : env.renameOk = true) :
    downloadUpgrade cfg v env fs =
      (Except.ok (),
        [Action.makeClient, Action.openPart (partFilename cfg v),
         Action.statPart (partFilename cfg v),
         Action.sendRequest cfg.upgradeDownloadUrl
           (rangeHeader (((fs (partFilename cfg v)).getD []).length)),
         Action.copyBody (partFilename cfg v) [],
         Action.noticeBytes 0,
         Action.closeFile (partFilename cfg v),
         Action.renameFile (partFilename cfg v) cfg.upgradeDownloadFilename,
         Action.noticeDownloaded cfg.upgradeDownloadFilename])
    ∧ applyActions fs (downloadUpgrade cfg v env fs).2 cfg.upgradeDownloadFilename
        = some ((fs (partFilename cfg v)).getD [])
    ∧ applyActions fs (downloadUpgrade cfg v env fs).2 (partFilename cfg v) = none := by
  have hpf := Ne.symm (partFilename_ne cfg v)
  have htr : downloadUpgrade cfg v env fs =
      (Except.ok (),
        [Action.makeClient, Action.openPart (partFilename cfg v),
         Action.statPart (partFilename cfg v),
         Action.sendRequest cfg.upgradeDownloadUrl
           (rangeHeader (((fs (partFilename cfg v)).getD []).length)),
         Action.copyBody (partFilename cfg v) [],
         Action.noticeBytes 0,
         Action.closeFile (partFilename cfg v),
         Action.renameFile (partFilename cfg v) cfg.upgradeDownloadFilename,
         Action.noticeDownloaded cfg.upgradeDownloadFilename]) := by
    simp [downloadUpgrade, hfin, hc, ho, hs, hr, ht, h416, hbody, hberr, hcl, hrn]
  refine ⟨htr, ?_, ?_⟩ <;> rw [htr] <;>
    simp [applyActions_cons, applyActions_nil, applyAction, hpf, hfin, partFilename_ne cfg v]

/-- Witness for the amended C1 at a concrete input: a 416 response
with empty body against a two-byte partial file. -/
theorem C1_wit :
    downloadUpgrade cfg0 "v" (envOf resp416) fsPart =
      (Except.ok (),
        [Action.makeClient, Action.openPart (partFilename cfg0 "v"),
         Action.statPart (partFilename cfg0 "v"),
         Action.sendRequest cfg0.upgradeDownloadUrl
           (rangeHeader (((fsPart (partFilename cfg0 "v")).getD []).length)),
         Action.copyBody (partFilename cfg0 "v") [],
         Action.noticeBytes 0,
         Action.closeFile (partFilename cfg0 "v"),
         Action.renameFile (partFilename cfg0 "v") cfg0.upgradeDownloadFilename,
         Action.noticeDownloaded cfg0.upgradeDownloadFilename])
    ∧ applyActions fsPart (downloadUpgrade cfg0 "v" (envOf resp416) fsPart).2
        cfg0.upgradeDownloadFilename
      = some ((fsPart (partFilename cfg0 "v")).getD [])
    ∧ applyActions fsPart (downloadUpgrade cfg0 "v" (envOf resp416) fsPart).2
        (partFilename cfg0 "v") = none :=
  C1_thm cfg0 "v" (envOf resp416) fsPart resp416
    (by decide) rfl rfl rfl rfl rfl rfl rfl rfl rfl rfl

/-- Counterexample to claim C5 as stated: the short-circuit success
(final artifact already present) emits only the artifact-available
notice and no byte-count notice; and on the download path the
byte-count notice is emitted before the rename, as shown by a run
whose rename fails yet whose trace already contains that notice. -/
theorem C5_cex :
    (downloadUpgrade cfg0 "v" (envOf resp206) fsFinal).1 = Except.ok ()
    ∧ (downloadUpgrade cfg0 "v" (envOf resp206) fsFinal).2 = [Action.noticeDownloaded "f"]
    ∧ Action.noticeBytes 0 ∉ (downloadUpgrade cfg0 "v" (envOf resp206) fsFinal).2
    ∧ (downloadUpgrade cfg0 "v" (envNoRename resp206) fsNone).1
        = Except.error Err.renameErr
    ∧ Action.noticeBytes 3 ∈ (downloadUpgrade cfg0 "v" (envNoRename resp206) fsNone).2
    ∧ Action.renameFile "f.v.part" "f"
        ∉ (downloadUpgrade cfg0 "v" (envNoRename resp206) fsNone).2 :=
  ⟨rfl, by decide, by decide, rfl, by decide, by decide⟩

/-- Claim C5 (corrected): every successful invocation ends with the
artifact-available notice; on the download path the byte-count notice
is emitted right after the copy — before the close and the rename, not
after the rename as claimed — and the artifact-available notice
follows the rename, so the two notices do appear in the claimed order;
the short-circuit success emits only the artifact-available notice and
no byte-count notice. -/
theorem C5_thm (cfg : Config) (v : String) (env : Env) (fs : FS) :
    (∀ c : List Nat, fs cfg.upgradeDownloadFilename = some c →
      downloadUpgrade cfg v env fs
        = (Except.ok (), [Action.noticeDownloaded cfg.upgradeDownloadFilename]))
    ∧ (∀ resp : Response, fs cfg.upgradeDownloadFilename = none →
        env.clientOk = true → env.openOk = true → env.statOk = true →
        env.reqOk = true → env.transport = some resp →
        (resp.statusCode = 206 ∨ resp.statusCode = 416) →
        resp.bodyErr = false → env.closeOk = true → env.renameOk = true →
        downloadUpgrade cfg v env fs
          = (Except.ok (),
             [Action.makeClient, Action.openPart (partFilename cfg v),
              Action.statPart (partFilename cfg v),
              Action.sendRequest cfg.upgradeDownloadUrl
                (rangeHeader (((fs (partFilename cfg v)).getD []).length)),
              Action.copyBody (partFilename cfg v) resp.body,
              Action.noticeBytes resp.body.length,
              Action.closeFile (partFilename cfg v),
              Action.renameFile (partFilename cfg v) cfg.upgradeDownloadFilename,
              Action.noticeDownloaded cfg.upgradeDownloadFilename])) := by
  constructor
  · intro c hfin
    simp [downloadUpgrade, hfin]
  · intro resp hfin hc ho hs hr ht hst hb hcl hrn
    have hst' : ¬(resp.statusCode ≠ 206 ∧ resp.statusCode ≠ 416) := by
      rcases hst with h | h <;> simp [h]
    simp [downloadUpgrade, hfin, hc, ho, hs, hr, ht, hst', hb, hcl, hrn]

/-- Witness for the amended C5 at concrete inputs: the short-circuit
branch and a full successful 206 download. -/
theorem C5_wit :
    downloadUpgrade cfg0 "v" (envOf resp206) fsFinal
      = (Except.ok (), [Action.noticeDownloaded cfg0.upgradeDownloadFilename])
    ∧ downloadUpgrade cfg0 "v" (envOf resp206) fsNone
      = (Except.ok (),
         [Action.makeClient, Action.openPart (partFilename cfg0 "v"),
          Action.statPart (partFilename cfg0 "v"),
          Action.sendRequest cfg0.upgradeDownloadUrl
            (rangeHeader (((fsNone (partFilename cfg0 "v")).getD []).length)),
          Action.copyBody (partFilename cfg0 "v") resp206.body,
          Action.noticeBytes resp206.body.length,
          Action.closeFile (partFilename cfg0 "v"),
          Action.renameFile (partFilename cfg0 "v") cfg0.upgradeDownloadFilename,
          Action.noticeDownloaded cfg0.upgradeDownloadFilename]) :=
  ⟨(C5_thm cfg0 "v" (envOf resp206) fsFinal).1 [9] rfl,
   (C5_thm cfg0 "v" (envOf resp206) fsNone).2 resp206 rfl rfl rfl rfl rfl rfl
     (Or.inl rfl) rfl rfl rfl⟩

/-- Claim C2 (confirmed): with the partial file at length L when the
request is built, the issued GET carries the header Range: bytes=L-,
and a successfully copied 206 body of K bytes leaves the partial file
holding its old bytes followed, in order, by the K new ones, for a
length of exactly L+K. -/
theorem C2_thm (cfg : Config) (v : String) (env : Env) (fs : FS) (resp : Response)
    (hfin : fs cfg.upgradeDownloadFilename = none)
    (hc : env.clientOk = true) (ho : env.openOk = true) (hs : env.statOk = true)
    (hr : env.reqOk = true) (ht : env.transport = some resp)
    (h206 : resp.statusCode = 206) (hb : resp.bodyErr = false) :
    [Action.makeClient, Action.openPart (partFilename cfg v),
     Action.statPart (partFilename cfg v),
     Action.sendRequest cfg.upgradeDownloadUrl
       (rangeHeader (((fs (partFilename cfg v)).getD []).length)),
     Action.copyBody (partFilename cfg v) resp.body]
      <+: (downloadUpgrade cfg v env fs).2
    ∧ applyActions fs
        [Action.makeClient, Action.openPart (partFilename cfg v),
         Action.statPart (partFilename cfg v),
         Action.sendRequest cfg.upgradeDownloadUrl
           (rangeHeader (((fs (partFilename cfg v)).getD []).length)),
         Action.copyBody (partFilename cfg v) resp.body]
        (partFilename cfg v)
      = some ((fs (partFilename cfg v)).getD [] ++ resp.body)
    ∧ ((fs (partFilename cfg v)).getD [] ++ resp.body).length
      = ((fs (partFilename cfg v)).getD []).length + resp.body.length := by
  refine ⟨?_, ?_, ?_⟩
  · cases hcl : env.closeOk with
    | false =>
        have h2 : (downloadUpgrade cfg v env fs).2 =
            [Action.makeClient, Action.openPart (partFilename cfg v),
             Action.statPart (partFilename cfg v),
             Action.sendRequest cfg.upgradeDownloadUrl
               (rangeHeader (((fs (partFilename cfg v)).getD []).length)),
             Action.copyBody (partFilename cfg v) resp.body,
             Action.noticeBytes resp.body.length,
             Action.closeFile (partFilename cfg v)] := by
          simp [downloadUpgrade, hfin, hc, ho, hs, hr, ht, h206, hb, hcl]
        rw [h2]
        exact ⟨_, rfl⟩
    | true =>
        cases hrn : env.renameOk with
        | false =>
            have h2 : (downloadUpgrade cfg v env fs).2 =
                [Action.makeClient, Action.openPart (partFilename cfg v),
                 Action.statPart (partFilename cfg v),
                 Action.sendRequest cfg.upgradeDownloadUrl
                   (rangeHeader (((fs (partFilename cfg v)).getD []).length)),
                 Action.copyBody (partFilename cfg v) resp.body,
                 Action.noticeBytes resp.body.length,
                 Action.closeFile (partFilename cfg v)] := by
              simp [downloadUpgrade, hfin, hc, ho, hs, hr, ht, h206, hb, hcl, hrn]
            rw [h2]
            exact ⟨_, rfl⟩
        | true =>
            have h2 : (downloadUpgrade cfg v env fs).2 =
                [Action.makeClient, Action.openPart (partFilename cfg v),
                 Action.statPart (partFilename cfg v),
                 Action.sendRequest cfg.upgradeDownloadUrl
                   (rangeHeader (((fs (partFilename cfg v)).getD []).length)),
                 Action.copyBody (partFilename cfg v) resp.body,
                 Action.noticeBytes resp.body.length,
                 Action.closeFile (partFilename cfg v),
                 Action.renameFile (partFilename cfg v) cfg.upgradeDownloadFilename,
                 Action.noticeDownloaded cfg.upgradeDownloadFilename] := by
              simp [downloadUpgrade, hfin, hc, ho, hs, hr, ht, h206, hb, hcl, hrn]
            rw [h2]
            exact ⟨_, rfl⟩
  · simp [applyActions_cons, applyActions_nil, applyAction]
  · simp

/-- Witness for C2 at a concrete input: a two-byte partial file and a
206 response delivering three bytes. -/
theorem C2_wit :
    [Action.makeClient, Action.openPart (partFilename cfg0 "v"),
     Action.statPart (partFilename cfg0 "v"),
     Action.sendRequest cfg0.upgradeDownloadUrl
       (rangeHeader (((fsPart (partFilename cfg0 "v")).getD []).length)),
     Action.copyBody (partFilename cfg0 "v") resp206.body]
      <+: (downloadUpgrade cfg0 "v" (envOf resp206) fsPart).2
    ∧ applyActions fsPart
        [Action.makeClient, Action.openPart (partFilename cfg0 "v"),
         Action.statPart (partFilename cfg0 "v"),
         Action.sendRequest cfg0.upgradeDownloadUrl
           (rangeHeader (((fsPart (partFilename cfg0 "v")).getD []).length)),
         Action.copyBody (partFilename cfg0 "v") resp206.body]
        (partFilename cfg0 "v")
      = some ((fsPart (partFilename cfg0 "v")).getD [] ++ resp206.body)
    ∧ ((fsPart (partFilename cfg0 "v")).getD [] ++ resp206.body).length
      = ((fsPart (partFilename cfg0 "v")).getD []).length + resp206.body.length :=
  C2_thm cfg0 "v" (envOf resp206) fsPart resp206
    (by decide) rfl rfl rfl rfl rfl rfl rfl

/-- Claim C3 (confirmed): a response status other than 206 and 416
closes the response body, fails with a protocol error carrying that
status, and leaves the partial file exactly as it was before the
request (its content as of the open), with no copy and no rename, and
the final path untouched. -/
theorem C3_thm (cfg : Config) (v : String) (env : Env) (fs : FS) (resp : Response)
    (hfin : fs cfg.upgradeDownloadFilename = none)
    (hc : env.clientOk = true) (ho : env.openOk = true) (hs : env.statOk = true)
    (hr : env.reqOk = true) (ht : env.transport = some resp)
    (h1 : resp.statusCode ≠ 206) (h2 : resp.statusCode ≠ 416) :
    (downloadUpgrade cfg v env fs).1 = Except.error (Err.protocolErr resp.statusCode)
    ∧ Action.closeBody ∈ (downloadUpgrade cfg v env fs).2
    ∧ applyActions fs (downloadUpgrade cfg v env fs).2 (partFilename cfg v)
        = some ((fs (partFilename cfg v)).getD [])
    ∧ applyActions fs (downloadUpgrade cfg v env fs).2 cfg.upgradeDownloadFilename = none
    ∧ Action.copyBody (partFilename cfg v) resp.body ∉ (downloadUpgrade cfg v env fs).2
    ∧ Action.renameFile (partFilename cfg v) cfg.upgradeDownloadFilename
        ∉ (downloadUpgrade cfg v env fs).2 := by
  have hpf := Ne.symm (partFilename_ne cfg v)
  have htr : downloadUpgrade cfg v env fs =
      (Except.error (Err.protocolErr resp.statusCode),
        [Action.makeClient, Action.openPart (partFilename cfg v),
         Action.statPart (partFilename cfg v),
         Action.sendRequest cfg.upgradeDownloadUrl
           (rangeHeader (((fs (partFilename cfg v)).getD []).length)),
         Action.closeBody]) := by
    simp [downloadUpgrade, hfin, hc, ho, hs, hr, ht, h1, h2]
  rw [htr]
  refine ⟨rfl, by simp, ?_, ?_, by simp, by simp⟩
  · simp [applyActions_cons, applyActions_nil, applyAction]
  · simp [applyActions_cons, applyActions_nil, applyAction, hpf, hfin]

/-- Witness for C3 at a concrete input: a 404 response against a
two-byte partial file. -/
theorem C3_wit :
    (downloadUpgrade cfg0 "v" (envOf resp404) fsPart).1
        = Except.error (Err.protocolErr resp404.statusCode)
    ∧ Action.closeBody ∈ (downloadUpgrade cfg0 "v" (envOf resp404) fsPart).2
    ∧ applyActions fsPart (downloadUpgrade cfg0 "v" (envOf resp404) fsPart).2
        (partFilename cfg0 "v")
      = some ((fsPart (partFilename cfg0 "v")).getD [])
    ∧ applyActions fsPart (downloadUpgrade cfg0 "v" (envOf resp404) fsPart).2
        cfg0.upgradeDownloadFilename = none
    ∧ Action.copyBody (partFilename cfg0 "v") resp404.body
        ∉ (downloadUpgrade cfg0 "v" (envOf resp404) fsPart).2
    ∧ Action.renameFile (partFilename cfg0 "v") cfg0.upgradeDownloadFilename
        ∉ (downloadUpgrade cfg0 "v" (envOf resp404) fsPart).2 :=
  C3_thm cfg0 "v" (envOf resp404) fsPart resp404
    (by decide) rfl rfl rfl rfl rfl (by decide) (by decide)

/-- Claim C4 (confirmed): when the final artifact already exists the
function returns success immediately and its whole trace is the single
artifact-available notice, so there is no network call and no
filesystem write, and the filesystem is left pointwise unchanged. -/
theorem C4_thm (cfg : Config) (v : String) (env : Env) (fs : FS) (c : List Nat)
    (hfin : fs cfg.upgradeDownloadFilename = some c) :
    downloadUpgrade cfg v env fs
      = (Except.ok (), [Action.noticeDownloaded cfg.upgradeDownloadFilename])
    ∧ applyActions fs (downloadUpgrade cfg v env fs).2 = fs := by
  have htr : downloadUpgrade cfg v env fs
      = (Except.ok (), [Action.noticeDownloaded cfg.upgradeDownloadFilename]) := by
    simp [downloadUpgrade, hfin]
  exact ⟨htr, by rw [htr]; rfl⟩

/-- Witness for C4 at a concrete input: the final artifact already on
disk. -/
theorem C4_wit :
    downloadUpgrade cfg0 "v" (envOf resp206) fsFinal
      = (Except.ok (), [Action.noticeDownloaded cfg0.upgradeDownloadFilename])
    ∧ applyActions fsFinal (downloadUpgrade cfg0 "v" (envOf resp206) fsFinal).2 = fsFinal :=
  C4_thm cfg0 "v" (envOf resp206) fsFinal [9] rfl

/-- Claim C6 (confirmed): every error return leaves a pre-existing
partial file on disk, its prior bytes intact as an initial segment of
the file's content — never deleted, never truncated — so a later
invocation with the same version resumes from its length. -/
theorem C6_thm (cfg : Config) (v : String) (env : Env) (fs : FS)
    (old : List Nat) (e : Err)
    (hold : fs (partFilename cfg v) = some old)
    (herr : (downloadUpgrade cfg v env fs).1 = Except.error e) :
    applyActions fs (downloadUpgrade cfg v env fs).2 (partFilename cfg v) ≠ none
    ∧ old <+:
        (applyActions fs (downloadUpgrade cfg v env fs).2 (partFilename cfg v)).getD [] := by
  cases hf : fs cfg.upgradeDownloadFilename with
  | some c => simp [downloadUpgrade, hf] at herr
  | none =>
    cases hc : env.clientOk with
    | false =>
        constructor <;>
          simp [downloadUpgrade, hf, hc, applyActions_nil, hold]
    | true =>
      cases ho : env.openOk with
      | false =>
          constructor <;>
            simp [downloadUpgrade, hf, hc, ho, applyActions_cons, applyActions_nil,
              applyAction, hold]
      | true =>
        cases hs : env.statOk with
        | false =>
            constructor <;>
              simp [downloadUpgrade, hf, hc, ho, hs, applyActions_cons, applyActions_nil,
                applyAction, hold]
        | true =>
          cases hr : env.reqOk with
          | false =>
              constructor <;>
                simp [downloadUpgrade, hf, hc, ho, hs, hr, applyActions_cons,
                  applyActions_nil, applyAction, hold]
          | true =>
            cases ht : env.transport with
            | none =>
                constructor <;>
                  simp [downloadUpgrade, hf, hc, ho, hs, hr, ht, applyActions_cons,
                    applyActions_nil, applyAction, hold]
            | some resp =>
              by_cases hst : resp.statusCode ≠ 206 ∧ resp.statusCode ≠ 416
              · constructor <;>
                  simp [downloadUpgrade, hf, hc, ho, hs, hr, ht, hst, applyActions_cons,
                    applyActions_nil, applyAction, hold]
              · cases hb : resp.bodyErr with
                | true =>
                    constructor <;>
                      simp [downloadUpgrade, hf, hc, ho, hs, hr, ht, hst, hb,
                        applyActions_cons, applyActions_nil, applyAction, hold,
                        List.prefix_append]
                | false =>
                  cases hcl : env.closeOk with
                  | false =>
                      constructor <;>
                        simp [downloadUpgrade, hf, hc, ho, hs, hr, ht, hst, hb, hcl,
                          applyActions_cons, applyActions_nil, applyAction, hold,
                          List.prefix_append]
                  | true =>
                    cases hrn : env.renameOk with
                    | false =>
                        constructor <;>
                          simp [downloadUpgrade, hf, hc, ho, hs, hr, ht, hst, hb, hcl, hrn,
                            applyActions_cons, applyActions_nil, applyAction, hold,
                            List.prefix_append]
                    | true =>
                        simp [downloadUpgrade, hf, hc, ho, hs, hr, ht, hst, hb, hcl,
                          hrn] at herr

/-- Witness for C6 at a concrete input: a failing rename after a
successful 206 copy onto a two-byte partial file. -/
theorem C6_wit :
    applyActions fsPart (downloadUpgrade cfg0 "v" (envNoRename resp206) fsPart).2
        (partFilename cfg0 "v") ≠ none
    ∧ [1, 2] <+:
        (applyActions fsPart (downloadUpgrade cfg0 "v" (envNoRename resp206) fsPart).2
          (partFilename cfg0 "v")).getD [] :=
  C6_thm cfg0 "v" (envNoRename resp206) fsPart [1, 2] Err.renameErr (by decide) rfl

/-- Claim C7 (confirmed): a rename only ever appears in the trace
after the close of the partial file — the sublist fact below preserves
order — and only in runs whose close succeeded; when the close fails
the rename is never attempted. -/
theorem C7_thm (cfg : Config) (v : String) (env : Env) (fs : FS) :
    (Action.renameFile (partFilename cfg v) cfg.upgradeDownloadFilename
        ∈ (downloadUpgrade cfg v env fs).2 →
      ( List.Sublist
          [Action.closeFile (partFilename cfg v),
           Action.renameFile (partFilename cfg v) cfg.upgradeDownloadFilename]
          ((downloadUpgrade cfg v env fs).2)
        ∧ env.closeOk = true))
    ∧ (env.closeOk = false →
        Action.renameFile (partFilename cfg v) cfg.upgradeDownloadFilename
          ∉ (downloadUpgrade cfg v env fs).2) := by
  cases hf : fs cfg.upgradeDownloadFilename with
  | some c =>
      constructor <;> intro h <;> simp [downloadUpgrade, hf] at h ⊢
  | none =>
    cases hc : env.clientOk with
    | false => constructor <;> intro h <;> simp [downloadUpgrade, hf, hc] at h ⊢
    | true =>
      cases ho : env.openOk with
      | false => constructor <;> intro h <;> simp [downloadUpgrade, hf, hc, ho] at h ⊢
      | true =>
        cases hs : env.statOk with
        | false =>
            constructor <;> intro h <;> simp [downloadUpgrade, hf, hc, ho, hs] at h ⊢
        | true =>
          cases hr : env.reqOk with
          | false =>
              constructor <;> intro h <;>
                simp [downloadUpgrade, hf, hc, ho, hs, hr] at h ⊢
          | true =>
            cases ht : env.transport with
            | none =>
                constructor <;> intro h <;>
                  simp [downloadUpgrade, hf, hc, ho, hs, hr, ht] at h ⊢
            | some resp =>
              by_cases hst : resp.statusCode ≠ 206 ∧ resp.statusCode ≠ 416
              · constructor <;> intro h <;>
                  simp [downloadUpgrade, hf, hc, ho, hs, hr, ht, hst] at h ⊢
              · cases hb : resp.bodyErr with
                | true =>
                    constructor <;> intro h <;>
                      simp [downloadUpgrade, hf, hc, ho, hs, hr, ht, hst, hb] at h ⊢
                | false =>
                  cases hcl : env.closeOk with
                  | false =>
                      constructor <;> intro h <;>
                        simp [downloadUpgrade, hf, hc, ho, hs, hr, ht, hst, hb, hcl] at h ⊢
                  | true =>
                    cases hrn : env.renameOk with
                    | false =>
                        constructor <;> intro h <;>
                          simp [downloadUpgrade, hf, hc, ho, hs, hr, ht, hst, hb,
                            hcl, hrn] at h ⊢
                    | true =>
                        have htr : (downloadUpgrade cfg v env fs).2 =
                            [Action.makeClient, Action.openPart (partFilename cfg v),
                             Action.statPart (partFilename cfg v),
                             Action.sendRequest cfg.upgradeDownloadUrl
                               (rangeHeader (((fs (partFilename cfg v)).getD []).length)),
                             Action.copyBody (partFilename cfg v) resp.body,
                             Action.noticeBytes resp.body.length,
                             Action.closeFile (partFilename cfg v),
                             Action.renameFile (partFilename cfg v)
                               cfg.upgradeDownloadFilename,
                             Action.noticeDownloaded cfg.upgradeDownloadFilename] := by
                          simp [downloadUpgrade, hf, hc, ho, hs, hr, ht, hst, hb, hcl, hrn]
                        rw [htr]
                        constructor
                        · intro _
                          refine ⟨?_, rfl⟩
                          exact
                            (List.Sublist.cons₂ _ (List.Sublist.cons₂ _
                              (List.nil_sublist _))).trans
                              (List.sublist_append_right
                                [Action.makeClient, Action.openPart (partFilename cfg v),
                                 Action.statPart (partFilename cfg v),
                                 Action.sendRequest cfg.upgradeDownloadUrl
                                   (rangeHeader
                                     (((fs (partFilename cfg v)).getD []).length)),
                                 Action.copyBody (partFilename cfg v) resp.body,
                                 Action.noticeBytes resp.body.length] _)
                        · intro h
                          simp at h

/-- Witness for C7 at concrete inputs: a successful 206 run, whose
trace carries the close before the rename. -/
theorem C7_wit :
    List.Sublist
      [Action.closeFile (partFilename cfg0 "v"),
       Action.renameFile (partFilename cfg0 "v") cfg0.upgradeDownloadFilename]
      ((downloadUpgrade cfg0 "v" (envOf resp206) fsNone).2)
    ∧ (envOf resp206).closeOk = true :=
  (C7_thm cfg0 "v" (envOf resp206) fsNone).1 (by decide)

/-- Claim C9 (confirmed): the partial file path is the final path
followed by ".", the version string and ".part"; whenever the open
succeeds, the open step creates the file empty when it is absent and
otherwise leaves its content untouched (append mode, no truncation on
open). -/
theorem C9_thm (cfg : Config) (v : String) (env : Env) (fs : FS)
    (hfin : fs cfg.upgradeDownloadFilename = none)
    (hc : env.clientOk = true) (ho : env.openOk = true) :
    partFilename cfg v = cfg.upgradeDownloadFilename ++ "." ++ v ++ ".part"
    ∧ Action.openPart (cfg.upgradeDownloadFilename ++ "." ++ v ++ ".part")
        ∈ (downloadUpgrade cfg v env fs).2
    ∧ applyActions fs [Action.makeClient, Action.openPart (partFilename cfg v)]
        (partFilename cfg v)
      = some ((fs (partFilename cfg v)).getD []) := by
  refine ⟨rfl, ?_, ?_⟩
  · cases hs : env.statOk with
    | false => simp [downloadUpgrade, hfin, hc, ho, hs, partFilename]
    | true =>
      cases hr : env.reqOk with
      | false => simp [downloadUpgrade, hfin, hc, ho, hs, hr, partFilename]
      | true =>
        cases ht : env.transport with
        | none => simp [downloadUpgrade, hfin, hc, ho, hs, hr, ht, partFilename]
        | some resp =>
          by_cases hst : resp.statusCode ≠ 206 ∧ resp.statusCode ≠ 416
          · simp [downloadUpgrade, hfin, hc, ho, hs, hr, ht, hst, partFilename]
          · cases hb : resp.bodyErr with
            | true =>
                simp [downloadUpgrade, hfin, hc, ho, hs, hr, ht, hst, hb, partFilename]
            | false =>
              cases hcl : env.closeOk with
              | false =>
                  simp [downloadUpgrade, hfin, hc, ho, hs, hr, ht, hst, hb, hcl,
                    partFilename]
              | true =>
                cases hrn : env.renameOk with
                | false =>
                    simp [downloadUpgrade, hfin, hc, ho, hs, hr, ht, hst, hb, hcl, hrn,
                      partFilename]
                | true =>
                    simp [downloadUpgrade, hfin, hc, ho, hs, hr, ht, hst, hb, hcl, hrn,
                      partFilename]
  · simp [applyActions_cons, applyActions_nil, applyAction]

/-- Witness for C9 at a concrete input: the partial file for final
path "f" and version "v" lives at "f.v.part" and its two bytes survive
the open. -/
theorem C9_wit :
    partFilename cfg0 "v" = cfg0.upgradeDownloadFilename ++ "." ++ "v" ++ ".part"
    ∧ Action.openPart (cfg0.upgradeDownloadFilename ++ "." ++ "v" ++ ".part")
        ∈ (downloadUpgrade cfg0 "v" (envOf resp206) fsPart).2
    ∧ applyActions fsPart [Action.makeClient, Action.openPart (partFilename cfg0 "v")]
        (partFilename cfg0 "v")
      = some ((fsPart (partFilename cfg0 "v")).getD []) :=
  C9_thm cfg0 "v" (envOf resp206) fsPart (by decide) rfl rfl

/-- Claim C10 (confirmed): the tunneled client is constructed after
the final-file check and before the partial file is opened — whenever
the open appears in a trace, the trace starts with the client
construction immediately followed by that open — and when client
construction fails the function returns the client error with an empty
trace, so the filesystem is pointwise unchanged and the partial file
was never created or opened. -/
theorem C10_thm (cfg : Config) (v : String) (env : Env) (fs : FS) :
    (fs cfg.upgradeDownloadFilename = none → env.clientOk = false →
      downloadUpgrade cfg v env fs = (Except.error Err.clientErr, [])
      ∧ applyActions fs (downloadUpgrade cfg v env fs).2 = fs)
    ∧ (Action.openPart (partFilename cfg v) ∈ (downloadUpgrade cfg v env fs).2 →
        [Action.makeClient, Action.openPart (partFilename cfg v)]
          <+: (downloadUpgrade cfg v env fs).2) := by
  constructor
  · intro hfin hc
    have htr : downloadUpgrade cfg v env fs = (Except.error Err.clientErr, []) := by
      simp [downloadUpgrade, hfin, hc]
    exact ⟨htr, by rw [htr]; rfl⟩
  · cases hf : fs cfg.upgradeDownloadFilename with
    | some c =>
        intro h
        simp [downloadUpgrade, hf] at h
    | none =>
      cases hc : env.clientOk with
      | false => intro h; simp [downloadUpgrade, hf, hc] at h
      | true =>
        cases ho : env.openOk with
        | false => intro h; simp [downloadUpgrade, hf, hc, ho] at h
        | true =>
          cases hs : env.statOk with
          | false =>
              intro _
              have htr : (downloadUpgrade cfg v env fs).2 =
                  [Action.makeClient, Action.openPart (partFilename cfg v)] := by
                simp [downloadUpgrade, hf, hc, ho, hs]
              rw [htr]
          | true =>
            cases hr : env.reqOk with
            | false =>
                intro _
                have htr : (downloadUpgrade cfg v env fs).2 =
                    [Action.makeClient, Action.openPart (partFilename cfg v),
                     Action.statPart (partFilename cfg v)] := by
                  simp [downloadUpgrade, hf, hc, ho, hs, hr]
                rw [htr]
                exact ⟨_, rfl⟩
            | true =>
              cases ht : env.transport with
              | none =>
                  intro _
                  have htr : (downloadUpgrade cfg v env fs).2 =
                      [Action.makeClient, Action.openPart (partFilename cfg v),
                       Action.statPart (partFilename cfg v),
                       Action.sendRequest cfg.upgradeDownloadUrl
                         (rangeHeader (((fs (partFilename cfg v)).getD []).length))] := by
                    simp [downloadUpgrade, hf, hc, ho, hs, hr, ht]
                  rw [htr]
                  exact ⟨_, rfl⟩
              | some resp =>
                by_cases hst : resp.statusCode ≠ 206 ∧ resp.statusCode ≠ 416
                · intro _
                  have htr : (downloadUpgrade cfg v env fs).2 =
                      [Action.makeClient, Action.openPart (partFilename cfg v),
                       Action.statPart (partFilename cfg v),
                       Action.sendRequest cfg.upgradeDownloadUrl
                         (rangeHeader (((fs (partFilename cfg v)).getD []).length)),
                       Action.closeBody] := by
                    simp [downloadUpgrade, hf, hc, ho, hs, hr, ht, hst]
                  rw [htr]
                  exact ⟨_, rfl⟩
                · cases hb : resp.bodyErr with
                  | true =>
                      intro _
                      have htr : (downloadUpgrade cfg v env fs).2 =
                          [Action.makeClient, Action.openPart (partFilename cfg v),
                           Action.statPart (partFilename cfg v),
                           Action.sendRequest cfg.upgradeDownloadUrl
                             (rangeHeader (((fs (partFilename cfg v)).getD []).length)),
                           Action.copyBody (partFilename cfg v) resp.body] := by
                        simp [downloadUpgrade, hf, hc, ho, hs, hr, ht, hst, hb]
                      rw [htr]
                      exact ⟨_, rfl⟩
                  | false =>
                    cases hcl : env.closeOk with
                    | false =>
                        intro _
                        have htr : (downloadUpgrade cfg v env fs).2 =
                            [Action.makeClient, Action.openPart (partFilename cfg v),
                             Action.statPart (partFilename cfg v),
                             Action.sendRequest cfg.upgradeDownloadUrl
                               (rangeHeader (((fs (partFilename cfg v)).getD []).length)),
                             Action.copyBody (partFilename cfg v) resp.body,
                             Action.noticeBytes resp.body.length,
                             Action.closeFile (partFilename cfg v)] := by
                          simp [downloadUpgrade, hf, hc, ho, hs, hr, ht, hst, hb, hcl]
                        rw [htr]
                        exact ⟨_, rfl⟩
                    | true =>
                      cases hrn : env.renameOk with
                      | false =>
                          intro _
                          have htr : (downloadUpgrade cfg v env fs).2 =
                              [Action.makeClient, Action.openPart (partFilename cfg v),
                               Action.statPart (partFilename cfg v),
                               Action.sendRequest cfg.upgradeDownloadUrl
                                 (rangeHeader (((fs (partFilename cfg v)).getD []).length)),
                               Action.copyBody (partFilename cfg v) resp.body,
                               Action.noticeBytes resp.body.length,
                               Action.closeFile (partFilename cfg v)] := by
                            simp [downloadUpgrade, hf, hc, ho, hs, hr, ht, hst, hb, hcl,
                              hrn]
                          rw [htr]
                          exact ⟨_, rfl⟩
                      | true =>
                          intro _
                          have htr : (downloadUpgrade cfg v env fs).2 =
                              [Action.makeClient, Action.openPart (partFilename cfg v),
                               Action.statPart (partFilename cfg v),
                               Action.sendRequest cfg.upgradeDownloadUrl
                                 (rangeHeader (((fs (partFilename cfg v)).getD []).length)),
                               Action.copyBody (partFilename cfg v) resp.body,
                               Action.noticeBytes resp.body.length,
                               Action.closeFile (partFilename cfg v),
                               Action.renameFile (partFilename cfg v)
                                 cfg.upgradeDownloadFilename,
                               Action.noticeDownloaded cfg.upgradeDownloadFilename] := by
                            simp [downloadUpgrade, hf, hc, ho, hs, hr, ht, hst, hb, hcl,
                              hrn]
                          rw [htr]
                          exact ⟨_, rfl⟩

/-- Witness for C10 at concrete inputs: a failing client construction
leaves the filesystem untouched, and a successful run's trace starts
with the client construction followed by the open. -/
theorem C10_wit :
    (downloadUpgrade cfg0 "v" envNoClient fsNone = (Except.error Err.clientErr, [])
      ∧ applyActions fsNone (downloadUpgrade cfg0 "v" envNoClient fsNone).2 = fsNone)
    ∧ [Action.makeClient, Action.openPart (partFilename cfg0 "v")]
        <+: (downloadUpgrade cfg0 "v" (envOf resp206) fsNone).2 :=
  ⟨(C10_thm cfg0 "v" envNoClient fsNone).1 rfl rfl,
   (C10_thm cfg0 "v" (envOf resp206) fsNone).2 (by decide)⟩

/-- Claim C8 (confirmed): the final path is never written directly;
at every point of every run — that is, after every prefix of the
trace — the final path holds either nothing or, only in a successful
run, exactly the completely written artifact (the prior partial bytes
followed by the entire response body), which appears solely through
the single rename. -/
theorem C8_thm (cfg : Config) (v : String) (env : Env) (fs : FS) (pre : List Action)
    (hfin : fs cfg.upgradeDownloadFilename = none)
    (hpre : pre <+: (downloadUpgrade cfg v env fs).2) :
    applyActions fs pre cfg.upgradeDownloadFilename = none
    ∨ ((downloadUpgrade cfg v env fs).1 = Except.ok ()
       ∧ applyActions fs pre cfg.upgradeDownloadFilename
           = some ((fs (partFilename cfg v)).getD []
               ++ ((env.transport.getD ⟨0, [], false⟩).body))) := by
  have hfe : cfg.upgradeDownloadFilename ≠ partFilename cfg v :=
    Ne.symm (partFilename_ne cfg v)
  cases hf : fs cfg.upgradeDownloadFilename with
  | some c => rw [hf] at hfin; cases hfin
  | none =>
    cases hc : env.clientOk with
    | false =>
        left
        have horiz : ∀ a ∈ (downloadUpgrade cfg v env fs).2,
            ¬ writesPath cfg.upgradeDownloadFilename a := by
          simp only [downloadUpgrade, hf, hc]
          intro a ha
          simp at ha
        rw [applyActions_not_writes _ pre fs (fun a ha => horiz a (hpre.subset ha)), hf]
    | true =>
      cases ho : env.openOk with
      | false =>
          left
          have horiz : ∀ a ∈ (downloadUpgrade cfg v env fs).2,
              ¬ writesPath cfg.upgradeDownloadFilename a := by
            have htr : (downloadUpgrade cfg v env fs).2 = [Action.makeClient] := by
              simp [downloadUpgrade, hf, hc, ho]
            rw [htr]
            intro a ha
            fin_cases ha <;> simp [writesPath]
          rw [applyActions_not_writes _ pre fs (fun a ha => horiz a (hpre.subset ha)), hf]
      | true =>
        cases hs : env.statOk with
        | false =>
            left
            have horiz : ∀ a ∈ (downloadUpgrade cfg v env fs).2,
                ¬ writesPath cfg.upgradeDownloadFilename a := by
              have htr : (downloadUpgrade cfg v env fs).2 =
                  [Action.makeClient, Action.openPart (partFilename cfg v)] := by
                simp [downloadUpgrade, hf, hc, ho, hs]
              rw [htr]
              intro a ha
              fin_cases ha <;> simp [writesPath, partFilename_ne cfg v]
            rw [applyActions_not_writes _ pre fs (fun a ha => horiz a (hpre.subset ha)), hf]
        | true =>
          cases hr : env.reqOk with
          | false =>
              left
              have horiz : ∀ a ∈ (downloadUpgrade cfg v env fs).2,
                  ¬ writesPath cfg.upgradeDownloadFilename a := by
                have htr : (downloadUpgrade cfg v env fs).2 =
                    [Action.makeClient, Action.openPart (partFilename cfg v),
                     Action.statPart (partFilename cfg v)] := by
                  simp [downloadUpgrade, hf, hc, ho, hs, hr]
                rw [htr]
                intro a ha
                fin_cases ha <;> simp [writesPath, partFilename_ne cfg v]
              rw [applyActions_not_writes _ pre fs (fun a ha => horiz a (hpre.subset ha)), hf]
          | true =>
            cases ht : env.transport with
            | none =>
                left
                have horiz : ∀ a ∈ (downloadUpgrade cfg v env fs).2,
                    ¬ writesPath cfg.upgradeDownloadFilename a := by
                  have htr : (downloadUpgrade cfg v env fs).2 =
                      [Action.makeClient, Action.openPart (partFilename cfg v),
                       Action.statPart (partFilename cfg v),
                       Action.sendRequest cfg.upgradeDownloadUrl
                         (rangeHeader (((fs (partFilename cfg v)).getD []).length))] := by
                    simp [downloadUpgrade, hf, hc, ho, hs, hr, ht]
                  rw [htr]
                  intro a ha
                  fin_cases ha <;> simp [writesPath, partFilename_ne cfg v]
                rw [applyActions_not_writes _ pre fs (fun a ha => horiz a (hpre.subset ha)),
                  hf]
            | some resp =>
              by_cases hst : resp.statusCode ≠ 206 ∧ resp.statusCode ≠ 416
              · left
                have horiz : ∀ a ∈ (downloadUpgrade cfg v env fs).2,
                    ¬ writesPath cfg.upgradeDownloadFilename a := by
                  have htr : (downloadUpgrade cfg v env fs).2 =
                      [Action.makeClient, Action.openPart (partFilename cfg v),
                       Action.statPart (partFilename cfg v),
                       Action.sendRequest cfg.upgradeDownloadUrl
                         (rangeHeader (((fs (partFilename cfg v)).getD []).length)),
                       Action.closeBody] := by
                    simp [downloadUpgrade, hf, hc, ho, hs, hr, ht, hst]
                  rw [htr]
                  intro a ha
                  fin_cases ha <;> simp [writesPath, partFilename_ne cfg v]
                rw [applyActions_not_writes _ pre fs (fun a ha => horiz a (hpre.subset ha)),
                  hf]
              · cases hb : resp.bodyErr with
                | true =>
                    left
                    have horiz : ∀ a ∈ (downloadUpgrade cfg v env fs).2,
                        ¬ writesPath cfg.upgradeDownloadFilename a := by
                      have htr : (downloadUpgrade cfg v env fs).2 =
                          [Action.makeClient, Action.openPart (partFilename cfg v),
                           Action.statPart (partFilename cfg v),
                           Action.sendRequest cfg.upgradeDownloadUrl
                             (rangeHeader (((fs (partFilename cfg v)).getD []).length)),
                           Action.copyBody (partFilename cfg v) resp.body] := by
                        simp [downloadUpgrade, hf, hc, ho, hs, hr, ht, hst, hb]
                      rw [htr]
                      intro a ha
                      fin_cases ha <;> simp [writesPath, partFilename_ne cfg v]
                    rw [applyActions_not_writes _ pre fs
                      (fun a ha => horiz a (hpre.subset ha)), hf]
                | false =>
                  cases hcl : env.closeOk with
                  | false =>
                      left
                      have horiz : ∀ a ∈ (downloadUpgrade cfg v env fs).2,
                          ¬ writesPath cfg.upgradeDownloadFilename a := by
                        have htr : (downloadUpgrade cfg v env fs).2 =
                            [Action.makeClient, Action.openPart (partFilename cfg v),
                             Action.statPart (partFilename cfg v),
                             Action.sendRequest cfg.upgradeDownloadUrl
                               (rangeHeader (((fs (partFilename cfg v)).getD []).length)),
                             Action.copyBody (partFilename cfg v) resp.body,
                             Action.noticeBytes resp.body.length,
                             Action.closeFile (partFilename cfg v)] := by
                          simp [downloadUpgrade, hf, hc, ho, hs, hr, ht, hst, hb, hcl]
                        rw [htr]
                        intro a ha
                        fin_cases ha <;> simp [writesPath, partFilename_ne cfg v]
                      rw [applyActions_not_writes _ pre fs
                        (fun a ha => horiz a (hpre.subset ha)), hf]
                  | true =>
                    cases hrn : env.renameOk with
                    | false =>
                        left
                        have horiz : ∀ a ∈ (downloadUpgrade cfg v env fs).2,
                            ¬ writesPath cfg.upgradeDownloadFilename a := by
                          have htr : (downloadUpgrade cfg v env fs).2 =
                              [Action.makeClient, Action.openPart (partFilename cfg v),
                               Action.statPart (partFilename cfg v),
                               Action.sendRequest cfg.upgradeDownloadUrl
                                 (rangeHeader (((fs (partFilename cfg v)).getD []).length)),
                               Action.copyBody (partFilename cfg v) resp.body,
                               Action.noticeBytes resp.body.length,
                               Action.closeFile (partFilename cfg v)] := by
                            simp [downloadUpgrade, hf, hc, ho, hs, hr, ht, hst, hb, hcl,
                              hrn]
                          rw [htr]
                          intro a ha
                          fin_cases ha <;> simp [writesPath, partFilename_ne cfg v]
                        rw [applyActions_not_writes _ pre fs
                          (fun a ha => horiz a (hpre.subset ha)), hf]
                    | true =>
                        have hres : (downloadUpgrade cfg v env fs).1 = Except.ok () := by
                          simp [downloadUpgrade, hf, hc, ho, hs, hr, ht, hst, hb, hcl, hrn]
                        have htr : (downloadUpgrade cfg v env fs).2 =
                            [Action.makeClient, Action.openPart (partFilename cfg v),
                             Action.statPart (partFilename cfg v),
                             Action.sendRequest cfg.upgradeDownloadUrl
                               (rangeHeader (((fs (partFilename cfg v)).getD []).length)),
                             Action.copyBody (partFilename cfg v) resp.body,
                             Action.noticeBytes resp.body.length,
                             Action.closeFile (partFilename cfg v),
                             Action.renameFile (partFilename cfg v)
                               cfg.upgradeDownloadFilename,
                             Action.noticeDownloaded cfg.upgradeDownloadFilename] := by
                          simp [downloadUpgrade, hf, hc, ho, hs, hr, ht, hst, hb, hcl, hrn]
                        rw [htr] at hpre
                        rcases front_of_cons _ _ _ hpre with rfl | ⟨p1, rfl, h1⟩
                        · exact Or.inl hf
                        rcases front_of_cons _ _ _ h1 with rfl | ⟨p2, rfl, h2⟩
                        · exact Or.inl hf
                        rcases front_of_cons _ _ _ h2 with rfl | ⟨p3, rfl, h3⟩
                        · left
                          simp [applyActions_cons, applyActions_nil, applyAction, hfe, hf]
                        rcases front_of_cons _ _ _ h3 with rfl | ⟨p4, rfl, h4⟩
                        · left
                          simp [applyActions_cons, applyActions_nil, applyAction, hfe, hf]
                        rcases front_of_cons _ _ _ h4 with rfl | ⟨p5, rfl, h5⟩
                        · left
                          simp [applyActions_cons, applyActions_nil, applyAction, hfe, hf]
                        rcases front_of_cons _ _ _ h5 with rfl | ⟨p6, rfl, h6⟩
                        · left
                          simp [applyActions_cons, applyActions_nil, applyAction, hfe, hf]
                        rcases front_of_cons _ _ _ h6 with rfl | ⟨p7, rfl, h7⟩
                        · left
                          simp [applyActions_cons, applyActions_nil, applyAction, hfe, hf]
                        rcases front_of_cons _ _ _ h7 with rfl | ⟨p8, rfl, h8⟩
                        · left
                          simp [applyActions_cons, applyActions_nil, applyAction, hfe, hf]
                        rcases front_of_cons _ _ _ h8 with rfl | ⟨p9, rfl, h9⟩
                        · right
                          refine ⟨hres, ?_⟩
                          simp [applyActions_cons, applyActions_nil, applyAction, hfe, ht]
                        have h9nil := front_of_nil _ h9
                        subst h9nil
                        right
                        refine ⟨hres, ?_⟩
                        simp [applyActions_cons, applyActions_nil, applyAction, hfe, ht]

/-- Witness for C8 at a concrete input: the prefix of a successful 206
run that ends right after the rename; the final path then holds the
complete five-byte artifact. -/
theorem C8_wit :
    applyActions fsPart
        [Action.makeClient, Action.openPart (partFilename cfg0 "v"),
         Action.statPart (partFilename cfg0 "v"),
         Action.sendRequest cfg0.upgradeDownloadUrl (rangeHeader 2),
         Action.copyBody (partFilename cfg0 "v") [3, 4, 5],
         Action.noticeBytes 3, Action.closeFile (partFilename cfg0 "v"),
         Action.renameFile (partFilename cfg0 "v") cfg0.upgradeDownloadFilename]
        cfg0.upgradeDownloadFilename = none
    ∨ ((downloadUpgrade cfg0 "v" (envOf resp206) fsPart).1 = Except.ok ()
       ∧ applyActions fsPart
           [Action.makeClient, Action.openPart (partFilename cfg0 "v"),
            Action.statPart (partFilename cfg0 "v"),
            Action.sendRequest cfg0.upgradeDownloadUrl (rangeHeader 2),
            Action.copyBody (partFilename cfg0 "v") [3, 4, 5],
            Action.noticeBytes 3, Action.closeFile (partFilename cfg0 "v"),
            Action.renameFile (partFilename cfg0 "v") cfg0.upgradeDownloadFilename]
           cfg0.upgradeDownloadFilename
         = some ((fsPart (partFilename cfg0 "v")).getD []
             ++ ((((envOf resp206).transport).getD ⟨0, [], false⟩).body))) :=
  C8_thm cfg0 "v" (envOf resp206) fsPart
    [Action.makeClient, Action.openPart (partFilename cfg0 "v"),
     Action.statPart (partFilename cfg0 "v"),
     Action.sendRequest cfg0.upgradeDownloadUrl (rangeHeader 2),
     Action.copyBody (partFilename cfg0 "v") [3, 4, 5],
     Action.noticeBytes 3, Action.closeFile (partFilename cfg0 "v"),
     Action.renameFile (partFilename cfg0 "v") cfg0.upgradeDownloadFilename]
    (by decide) (by decide)

example :
    (downloadUpgrade cfg0 "v" (envOf resp206) fsPart).2 =
      [Action.makeClient, Action.openPart "f.v.part", Action.statPart "f.v.part",
       Action.sendRequest "u" "bytes=2-",
       Action.copyBody "f.v.part" [3, 4, 5],
       Action.noticeBytes 3,
       Action.closeFile "f.v.part",
       Action.renameFile "f.v.part" "f",
       Action.noticeDownloaded "f"] := by decide

example :
    applyActions fsPart (downloadUpgrade cfg0 "v" (envOf resp206) fsPart).2 "f" =
      some [1, 2, 3, 4, 5] := by decide

end UpgradeDL
